import Mathlib

/-!
Verification of the daily grid selection and caching subsystem of the
`flawlessgrid` repository (TypeScript Express backend, `api-service/server.ts`).

Shallow embedding conventions:
* JavaScript numbers that only ever hold exact values in the code paths we
  reason about (epoch milliseconds, counters, lengths) are modelled as `ℤ`/`ℕ`.
* `Math.sin` is a platform float function whose exact values no claim depends
  on; it is modelled as an arbitrary parameter `jsSin : ℚ → ℚ` (IEEE doubles
  are rationals).  The fractional-part and floor arithmetic around it is exact.
* `new Date(date).getTime()` is modelled by `parseDateMs`, covering the ISO
  `YYYY-MM-DD` date-only format the server itself always passes (parsed as UTC
  midnight).  A string that does not parse yields `none`, modelling the `NaN`
  timestamp.  `NaN` propagation through `sin`, `*`, `floor` and `-` is modelled
  by the selector using a constant `none` index stream in that case, and the
  `Set<number>` treats `NaN` as equal to itself (SameValueZero), which the
  `Option ℕ` element `none` also does.
* The unbounded `while` loop of the selector is given fuel semantics:
  `selectLoop` returns `some result` exactly when the loop guard fails within
  `fuel` iterations, and `none` while the loop is still running.  Divergence of
  the source loop is `∀ fuel, … = none`.
* JavaScript `games[idx]` yields `undefined` out of range, so selected entries
  are `Option Game`; `Set` objects are modelled as duplicate-free lists,
  `Map<string, _>` as an association list, and the ambient clock `Date.now()`
  as an explicit `now : ℤ` argument.
-/

namespace Flawlessgrid

/-- The `Game` interface from `src/types/Game.ts`: optional id, display name,
optional cover url, optional screenshot urls, optional release timestamp. -/
structure Game where
  id : Option ℤ
  name : String
  cover : Option String
  screenshots : Option (List String)
  first_release_date : Option ℤ
deriving DecidableEq

/-! ### Date parsing: model of `new Date(date).getTime()` for ISO dates -/

/-- Value of a decimal digit character, `none` if not a digit. -/
def decDigit (c : Char) : Option ℕ :=
  if ('0' ≤ c ∧ c ≤ '9') then some (c.toNat - '0'.toNat) else none

/-- Decimal value of a nonempty all-digit character list, else `none`. -/
def digitsVal : List Char → Option ℕ
  | [] => none
  | cs => cs.foldl (fun acc c => acc.bind fun n => (decDigit c).map fun d => 10 * n + d)
      (some 0)

/-- Split a character list on `-` separators. -/
def splitDash (cs : List Char) : List (List Char) :=
  cs.foldr
    (fun c acc =>
      if c = '-' then [] :: acc
      else
        match acc with
        | [] => [[c]]
        | g :: gs => (c :: g) :: gs)
    [[]]

/-- Gregorian leap year. -/
def isLeapYear (y : ℕ) : Bool :=
  y % 4 = 0 ∧ (y % 100 ≠ 0 ∨ y % 400 = 0)

/-- Days in a month, as validated by the JS engine for ISO date strings. -/
def daysInMonth (y m : ℕ) : ℕ :=
  if m = 2 then (if isLeapYear y then 29 else 28)
  else if m = 4 ∨ m = 6 ∨ m = 9 ∨ m = 11 then 30
  else 31

/-- Days from the civil epoch 1970-01-01 to year `y`, month `m`, day `d`
(standard era-based civil-from-days algorithm; exact for `1 ≤ y`). -/
def daysFromCivil (y m d : ℕ) : ℤ :=
  let yy := if m ≤ 2 then y - 1 else y
  let era := yy / 400
  let yoe := yy % 400
  let mp := (m + 9) % 12
  let doy := (153 * mp + 2) / 5 + d - 1
  let doe := yoe * 365 + yoe / 4 - yoe / 100 + doy
  ((era * 146097 + doe : ℕ) : ℤ) - 719468

/-- Model of `new Date(date).getTime()` for the date-only ISO format
`YYYY-MM-DD` (interpreted as UTC midnight, per the ECMAScript date-time string
format).  Returns the epoch milliseconds, or `none` for a string that yields an
invalid date (`NaN` timestamp).  The server only ever passes
`toISOString().slice(0, 10)` strings, which this covers exactly. -/
def parseDateMs (date : String) : Option ℤ :=
  match splitDash date.toList with
  | [ys, ms, ds] =>
    if ys.length = 4 ∧ ms.length = 2 ∧ ds.length = 2 then
      match digitsVal ys, digitsVal ms, digitsVal ds with
      | some y, some m, some d =>
        if 1 ≤ m ∧ m ≤ 12 ∧ 1 ≤ d ∧ d ≤ daysInMonth y m then
          some (86400000 * daysFromCivil y m d)
        else none
      | _, _, _ => none
    else none
  | _ => none

/-! ### The seeded selector (`seededRandom`, `selectGamesForDate`) -/

/-- Model of `function seededRandom(seed) { const x = Math.sin(seed) * 10000; return
x - Math.floor(x) }`, with `Math.sin` abstracted as `jsSin`. -/
def seededRandom (jsSin : ℚ → ℚ) (seed : ℚ) : ℚ :=
  let x := jsSin seed * 10000
  x - (⌊x⌋ : ℚ)

/-- Model of `Math.floor(random * games.length)` used as an array index
(nonnegative in every reachable call, so `Int.toNat` is exact). -/
def jsIndex (random : ℚ) (len : ℕ) : ℕ :=
  (⌊random * (len : ℚ)⌋).toNat

/-- The index `Math.floor(seededRandom(dateNum + seedOffset) * games.length)`
computed at loop offset `k` for a date that parsed to timestamp `t`. -/
def sineIdx (jsSin : ℚ → ℚ) (t : ℤ) (len : ℕ) (k : ℕ) : ℕ :=
  jsIndex (seededRandom jsSin ((t : ℚ) + (k : ℚ))) len

/-- The `while` loop of `selectGamesForDate`, fuel-indexed.

`idxf` produces the index computed at a given `seedOffset` (`none` models the
`NaN` index arising from an unparseable date).  `selected` accumulates
`games[idx]` values (`Option Game`, `none` = `undefined`); `used` models the
`Set<number>` `usedIndexes` as a duplicate-free list, whose length is the
`Set`'s `size`.  Returns `some selected` exactly when the loop guard
`selectedGames.length < count && usedIndexes.size < games.length` fails within
`fuel` iterations, `none` while the loop is still running. -/
def selectLoop (idxf : ℕ → Option ℕ) (games : List Game) (count : ℕ) :
    ℕ → List (Option Game) → List (Option ℕ) → ℕ → Option (List (Option Game))
  | 0, selected, used, _ =>
    if selected.length < count ∧ used.length < games.length then none
    else some selected
  | fuel + 1, selected, used, seedOffset =>
    if selected.length < count ∧ used.length < games.length then
      let idx := idxf seedOffset
      if idx ∈ used then
        selectLoop idxf games count fuel selected used (seedOffset + 1)
      else
        selectLoop idxf games count fuel (selected ++ [idx.bind fun i => games[i]?])
          (used ++ [idx]) (seedOffset + 1)
    else some selected

/-- Model of `selectGamesForDate(games, date, count)` from `api-service/server.ts`:
derives `dateNum = new Date(date).getTime()`, then runs the index-rejection
loop over `seededRandom(dateNum + seedOffset)`.  The source's default `count`
is 9.  For an unparseable date the timestamp is `NaN`; then every computed
index is `NaN` (modelled `none`), which the `Set` deduplicates. -/
def selectGamesForDate (jsSin : ℚ → ℚ) (games : List Game) (date : String)
    (count : ℕ) (fuel : ℕ) : Option (List (Option Game)) :=
  match parseDateMs date with
  | some t => selectLoop (fun k => some (sineIdx jsSin t games.length k)) games count fuel [] [] 0
  | none => selectLoop (fun _ => none) games count fuel [] [] 0

/-! ### Name deduplication in the games handler -/

/-- The dedup loop of the games handler: `for (const game of allGames) { if
(!seenNames.has(game.name)) { uniqueGames.push(game); seenNames.add(game.name) } }`.
The `Set<string>` `seenNames` is modelled as a duplicate-free list. -/
def dedupByName (allGames : List Game) : List Game :=
  (allGames.foldl
    (fun acc g => if g.name ∈ acc.2 then acc else (acc.1 ++ [g], acc.2 ++ [g.name]))
    (([] : List Game), ([] : List String))).1

/-! ### The `/api/games` handler (cache tiers, durable store, fresh fetch) -/

/-- The mutable module-level slot `cachedGrid : { date: string; games: Game[] }`. -/
structure CachedGrid where
  date : String
  games : List (Option Game)
deriving DecidableEq

/-- Process state visible to the games handler: the in-memory grid slot and the
optional Neon `daily_grid` table (`none` when `DATABASE_URL` is unset), as an
association list from date to games. -/
structure ServerState where
  cachedGrid : CachedGrid
  db : Option (List (String × List (Option Game)))
deriving DecidableEq

/-- Outcome of one `/api/games` request: a `200 { games, gridId }` JSON
response, or the `500` error response of the `catch` block. -/
inductive GamesResponse
  | ok (games : List (Option Game)) (gridId : String)
  | serverError
deriving DecidableEq

/-- Model of `SELECT games FROM daily_grid WHERE date = d` on the association list. -/
def dbFind (rows : List (String × List (Option Game))) (d : String) :
    Option (List (Option Game)) :=
  match rows with
  | [] => none
  | (k, v) :: rest => if k = d then some v else dbFind rest d

/-- Model of `INSERT INTO daily_grid … ON CONFLICT (date) DO NOTHING`. -/
def dbInsertIfAbsent (rows : List (String × List (Option Game))) (d : String)
    (gs : List (Option Game)) : List (String × List (Option Game)) :=
  match dbFind rows d with
  | some _ => rows
  | none => rows ++ [(d, gs)]

/-- One `/api/games` request (server.ts lines 96-178), as a state transformer.

Explicit inputs replace ambient effects: `today` is
`new Date().toISOString().slice(0, 10)`; `upstream` is the IGDB response body
(`none` models an `axios` failure, answered by the `catch` block with a `500`);
the durable read and the fire-and-forget durable write are modelled as
succeeding (a read error only falls through to the fresh path, and a write
error is only logged).  The returned `Bool` records whether the upstream IGDB
catalog request was issued.  The result is `none` only while the selection
loop is still running (nontermination of `selectGamesForDate`).

Read path order, as in the source: memory slot first (exact date match and
nonempty games), then the durable store (populating the memory slot on a hit),
then token + catalog fetch, dedup, selection, write-through to both tiers. -/
def getGamesHandler (jsSin : ℚ → ℚ) (st : ServerState) (today : String)
    (upstream : Option (List Game)) (fuel : ℕ) :
    Option (GamesResponse × ServerState × Bool) :=
  if st.cachedGrid.date = today ∧ 0 < st.cachedGrid.games.length then
    some (.ok st.cachedGrid.games st.cachedGrid.date, st, false)
  else
    match (st.db.map fun rows => dbFind rows today).join with
    | some gs => some (.ok gs today, { st with cachedGrid := ⟨today, gs⟩ }, false)
    | none =>
      match upstream with
      | none => some (.serverError, st, true)
      | some allGames =>
        let uniqueGames := dedupByName allGames
        match selectGamesForDate jsSin uniqueGames today 9 fuel with
        | none => none
        | some selectedGames =>
          some (.ok selectedGames today,
            { cachedGrid := ⟨today, selectedGames⟩,
              db := st.db.map fun rows => dbInsertIfAbsent rows today selectedGames },
            true)

/-! ### The rate limiter (`isRateLimited`) -/

/-- One entry of `searchRateLimit : Map<string, { count, resetTime }>`. -/
structure RLRecord where
  count : ℕ
  resetTime : ℤ
deriving DecidableEq

/-- The `searchRateLimit` map, as an association list (insertion order kept,
`set` replaces in place, exactly like a JS `Map`). -/
abbrev RLState := List (String × RLRecord)

/-- Model of `searchRateLimit.get(ip)`. -/
def rlGet (st : RLState) (ip : String) : Option RLRecord :=
  match st with
  | [] => none
  | (k, v) :: rest => if k = ip then some v else rlGet rest ip

/-- Model of `searchRateLimit.set(ip, r)` (also models in-place `record.count++`). -/
def rlSet (st : RLState) (ip : String) (r : RLRecord) : RLState :=
  match st with
  | [] => [(ip, r)]
  | (k, v) :: rest => if k = ip then (k, r) :: rest else (k, v) :: rlSet rest ip r

/-- Model of `isRateLimited(ip)` (server.ts lines 28-38), with the ambient `Date.now()`
made an explicit `now` argument; returns the boolean together with the updated
map. -/
def isRateLimited (st : RLState) (ip : String) (now : ℤ) : Bool × RLState :=
  match rlGet st ip with
  | none => (false, rlSet st ip ⟨1, now + 60000⟩)
  | some record =>
    if now > record.resetTime then (false, rlSet st ip ⟨1, now + 60000⟩)
    else if 30 ≤ record.count then (true, st)
    else (false, rlSet st ip ⟨record.count + 1, record.resetTime⟩)

/-- A sequence of `isRateLimited(ip)` calls at the given instants, threading
the map; returns the list of results and the final map. -/
def rlRun (ip : String) : RLState → List ℤ → List Bool × RLState
  | st, [] => ([], st)
  | st, t :: ts =>
    let r := isRateLimited st ip t
    let rest := rlRun ip r.2 ts
    (r.1 :: rest.1, rest.2)

/-! ### The access token manager (`getAccessToken`) -/

/-- The module-level `accessToken` / `tokenExpiry` pair. -/
structure TokenState where
  accessToken : String
  tokenExpiry : ℤ
deriving DecidableEq

/-- Model of `getAccessToken()` (server.ts lines 76-88).  `now` is the ambient
`Date.now()`; `tok`/`ttl` are the `access_token` and `expires_in` (seconds) the
identity provider would return if the exchange is performed.  The returned
`Bool` records whether the upstream credential exchange was performed.  The JS
guard `if (accessToken && Date.now() < tokenExpiry)` tests string truthiness,
i.e. nonemptiness. -/
def getAccessToken (st : TokenState) (now : ℤ) (tok : String) (ttl : ℤ) :
    String × TokenState × Bool :=
  if st.accessToken ≠ "" ∧ now < st.tokenExpiry then (st.accessToken, st, false)
  else (tok, ⟨tok, now + (ttl - 60) * 1000⟩, true)

/-! ### The `/api/search` handler -/

/-- JS whitespace test for `String.prototype.trim` (the characters relevant to
query strings; full ECMAScript trim also strips other Unicode space code
points, none of which the claims depend on). -/
def isJsSpace (c : Char) : Bool :=
  c = ' ' ∨ c = '\t' ∨ c = '\n' ∨ c = '\r'

/-- Model of `s.trim()`: strip leading and trailing whitespace. -/
def jsTrim (s : String) : String :=
  ⟨((s.toList.dropWhile fun c => isJsSpace c).reverse.dropWhile fun c => isJsSpace c).reverse⟩

/-- Model of `query.replace(/["\\;]/g, '')`: remove every quote, backslash and
semicolon. -/
def stripQuerySyntax (s : String) : String :=
  ⟨s.toList.filter fun c => ¬(c = '"' ∨ c = '\\' ∨ c = ';')⟩

/-- Model of `query.replace(/["\\;]/g, '').trim()`, the sanitized query. -/
def sanitizeQuery (s : String) : String :=
  jsTrim (stripQuerySyntax s)

/-- The upstream IGDB query body the search handler posts, with the sanitized
query embedded. -/
def searchBody (sq : String) : String :=
  "search \"" ++ sq ++ "\"; fields name, id, first_release_date, cover.url; limit 10;"

/-- Outcome of one `/api/search` request: `400` validation error, `429`
rate-limit rejection, or the upstream call with the exact body posted. -/
inductive SearchOutcome
  | badRequest
  | tooMany
  | upstreamCall (body : String)
deriving DecidableEq

/-- One `/api/search` request (server.ts lines 180-198): `query` is
`req.query.query` (`none` when absent; the JS guard `!query` also catches the
empty string), `ip` the derived client id, `now` the clock.  Returns the
outcome and the updated rate-limit map.  The upstream call itself and its
response are outside the model; the outcome records the body that would be
posted. -/
def searchHandler (query : Option String) (rl : RLState) (ip : String) (now : ℤ) :
    SearchOutcome × RLState :=
  match query with
  | none => (.badRequest, rl)
  | some q =>
    if q = "" then (.badRequest, rl)
    else if (jsTrim q).length < 2 then (.badRequest, rl)
    else
      let sanitizedQuery := sanitizeQuery q
      if sanitizedQuery.length < 2 then (.badRequest, rl)
      else
        match isRateLimited rl ip now with
        | (true, rl2) => (.tooMany, rl2)
        | (false, rl2) => (.upstreamCall (searchBody sanitizedQuery), rl2)

/-! ### Concrete fixtures used by witnesses and counterexamples -/

/-- A minimal concrete game. -/
def wG (n : ℤ) (s : String) : Game := ⟨some n, s, none, none, none⟩

/-- A pool of a single game. -/
def wPool1 : List Game := [wG 1 ("A")]

/-- A pool of 5 games with pairwise distinct names. -/
def wPool5 : List Game :=
  [wG 1 ("A"), wG 2 ("B"), wG 3 ("C"), wG 4 ("D"), wG 5 ("E")]

/-- A pool of 9 games with pairwise distinct names. -/
def wPool9 : List Game :=
  [wG 1 ("A"), wG 2 ("B"), wG 3 ("C"), wG 4 ("D"), wG 5 ("E"),
   wG 6 ("F"), wG 7 ("G"), wG 8 ("H"), wG 9 ("I")]

/-- A concrete stand-in for the platform sine under which the date-seeded
index stream on a 5-element pool cycles through 0,1,2,3,4 (the epoch
milliseconds of an ISO date are divisible by 5). -/
def wSin5 : ℚ → ℚ := fun q => q / 50000

/-- A concrete stand-in for the platform sine under which the date-seeded
index stream on a 9-element pool cycles through 0,…,8 (the epoch milliseconds
of an ISO date are divisible by 9). -/
def wSin9 : ℚ → ℚ := fun q => q / 90000

/-- The constantly-zero stand-in for the platform sine. -/
def wSin0 : ℚ → ℚ := fun _ => 0

/-- A cold server state: empty memory slot, no durable store configured. -/
def wCold : ServerState := ⟨⟨"", []⟩, none⟩

/-- A durable-store content with one persisted row for 2024-05-30. -/
def wDb : List (String × List (Option Game)) := [(("2024-05-30"), [some (wG 1 ("A"))])]

/-- A server state with an empty memory slot but a configured durable store
holding `wDb`. -/
def wStDb : ServerState := ⟨⟨"", []⟩, some wDb⟩

/-- The state after a durable hit for 2024-05-30 populated the memory slot. -/
def wStHit : ServerState := ⟨⟨"2024-05-30", [some (wG 1 ("A"))]⟩, some wDb⟩

/-- The selection produced from `wPool5` under `wSin5` on 2024-05-30: the
index stream cycles 0,1,2,3,4, so the whole pool is picked in order. -/
def wRes5 : List (Option Game) :=
  [some (wG 1 ("A")), some (wG 2 ("B")), some (wG 3 ("C")),
   some (wG 4 ("D")), some (wG 5 ("E"))]

/-- The selection produced from `wPool9` under `wSin9` on 2024-05-30: the
index stream cycles 0,…,8, so the whole pool is picked in order. -/
def wRes9 : List (Option Game) :=
  [some (wG 1 ("A")), some (wG 2 ("B")), some (wG 3 ("C")),
   some (wG 4 ("D")), some (wG 5 ("E")), some (wG 6 ("F")),
   some (wG 7 ("G")), some (wG 8 ("H")), some (wG 9 ("I"))]

/-! ### Lemmas about the seeded transform and the selection loop -/

theorem seededRandom_eq_fract (jsSin : ℚ → ℚ) (seed : ℚ) :
    seededRandom jsSin seed = Int.fract (jsSin seed * 10000) := rfl

theorem seededRandom_nonneg (jsSin : ℚ → ℚ) (seed : ℚ) : 0 ≤ seededRandom jsSin seed := by
  rw [seededRandom_eq_fract]; exact Int.fract_nonneg _

theorem seededRandom_lt_one (jsSin : ℚ → ℚ) (seed : ℚ) : seededRandom jsSin seed < 1 := by
  rw [seededRandom_eq_fract]; exact Int.fract_lt_one _

theorem jsIndex_lt (r : ℚ) (len : ℕ) (h0 : 0 ≤ r) (h1 : r < 1) (hlen : 0 < len) :
    jsIndex r len < len := by
  have hfl : ⌊r * (len : ℚ)⌋ < (len : ℤ) := by
    rw [Int.floor_lt]
    calc r * (len : ℚ) < 1 * (len : ℚ) := by
          apply mul_lt_mul_of_pos_right h1
          exact_mod_cast hlen
      _ = ((len : ℤ) : ℚ) := by push_cast; ring
  have hnn : 0 ≤ ⌊r * (len : ℚ)⌋ :=
    Int.floor_nonneg.mpr (mul_nonneg h0 (by positivity))
  unfold jsIndex
  omega

theorem sineIdx_lt (jsSin : ℚ → ℚ) (t : ℤ) (len k : ℕ) (hlen : 0 < len) :
    sineIdx jsSin t len k < len :=
  jsIndex_lt _ _ (seededRandom_nonneg _ _) (seededRandom_lt_one _ _) hlen

theorem selectLoop_succ {idxf : ℕ → Option ℕ} {games : List Game} {count : ℕ}
    {fuel : ℕ} {sel : List (Option Game)} {used : List (Option ℕ)} {off : ℕ}
    {r : List (Option Game)}
    (h : selectLoop idxf games count fuel sel used off = some r) :
    selectLoop idxf games count (fuel + 1) sel used off = some r := by
  induction fuel generalizing sel used off with
  | zero =>
    simp only [selectLoop] at h ⊢
    by_cases hg : sel.length < count ∧ used.length < games.length
    · rw [if_pos hg] at h; exact absurd h (by simp)
    · rw [if_neg hg] at h ⊢; exact h
  | succ n ih =>
    simp only [selectLoop] at h ⊢
    by_cases hg : sel.length < count ∧ used.length < games.length
    · rw [if_pos hg] at h ⊢
      by_cases hm : idxf off ∈ used
      · rw [if_pos hm] at h ⊢; exact ih h
      · rw [if_neg hm] at h ⊢; exact ih h
    · rw [if_neg hg] at h ⊢; exact h

theorem selectLoop_add {idxf : ℕ → Option ℕ} {games : List Game} {count : ℕ}
    {fuel : ℕ} {sel : List (Option Game)} {used : List (Option ℕ)} {off : ℕ}
    {r : List (Option Game)}
    (h : selectLoop idxf games count fuel sel used off = some r) (k : ℕ) :
    selectLoop idxf games count (fuel + k) sel used off = some r := by
  induction k with
  | zero => exact h
  | succ n ih => exact selectLoop_succ ih

theorem selectLoop_agree {idxf : ℕ → Option ℕ} {games : List Game} {count : ℕ}
    {fuel1 fuel2 : ℕ} {sel : List (Option Game)} {used : List (Option ℕ)} {off : ℕ}
    {r1 r2 : List (Option Game)}
    (h1 : selectLoop idxf games count fuel1 sel used off = some r1)
    (h2 : selectLoop idxf games count fuel2 sel used off = some r2) : r1 = r2 := by
  rcases Nat.le_total fuel1 fuel2 with h | h
  · have := selectLoop_add h1 (fuel2 - fuel1)
    rw [Nat.add_sub_cancel' h] at this
    rw [this] at h2
    exact Option.some.inj h2
  · have := selectLoop_add h2 (fuel1 - fuel2)
    rw [Nat.add_sub_cancel' h] at this
    rw [this] at h1
    exact (Option.some.inj h1).symm

theorem selectLoop_none_stuck {games : List Game} {count : ℕ} :
    ∀ (fuel : ℕ) (sel : List (Option Game)) (used : List (Option ℕ)) (off : ℕ),
      none ∈ used → sel.length < count → used.length < games.length →
      selectLoop (fun _ => none) games count fuel sel used off = none := by
  intro fuel
  induction fuel with
  | zero =>
    intro sel used off _ h1 h2
    simp only [selectLoop]
    rw [if_pos ⟨h1, h2⟩]
  | succ n ih =>
    intro sel used off hmem h1 h2
    simp only [selectLoop]
    rw [if_pos ⟨h1, h2⟩, if_pos hmem]
    exact ih sel used (off + 1) hmem h1 h2

theorem selectLoop_elems {idxf : ℕ → Option ℕ} {games : List Game} {count : ℕ}
    (P : Option Game → Prop)
    (hpush : ∀ off, 0 < games.length → P ((idxf off).bind fun i => games[i]?)) :
    ∀ (fuel : ℕ) (sel : List (Option Game)) (used : List (Option ℕ)) (off : ℕ)
      (res : List (Option Game)),
      (∀ x ∈ sel, P x) →
      selectLoop idxf games count fuel sel used off = some res → ∀ x ∈ res, P x := by
  intro fuel
  induction fuel with
  | zero =>
    intro sel used off res hsel h
    simp only [selectLoop] at h
    by_cases hg : sel.length < count ∧ used.length < games.length
    · rw [if_pos hg] at h; exact absurd h (by simp)
    · rw [if_neg hg] at h; rw [← Option.some.inj h]; exact hsel
  | succ n ih =>
    intro sel used off res hsel h
    simp only [selectLoop] at h
    by_cases hg : sel.length < count ∧ used.length < games.length
    · rw [if_pos hg] at h
      by_cases hm : idxf off ∈ used
      · rw [if_pos hm] at h; exact ih sel used (off + 1) res hsel h
      · rw [if_neg hm] at h
        refine ih _ _ (off + 1) res ?_ h
        intro x hx
        rcases List.mem_append.mp hx with hx | hx
        · exact hsel x hx
        · rw [List.mem_singleton.mp hx]
          exact hpush off (by omega)
    · rw [if_neg hg] at h; rw [← Option.some.inj h]; exact hsel

theorem selectLoop_length {idxf : ℕ → Option ℕ} {games : List Game} {count : ℕ} :
    ∀ (fuel : ℕ) (sel : List (Option Game)) (used : List (Option ℕ)) (off : ℕ)
      (res : List (Option Game)),
      sel.length = used.length → sel.length ≤ count → count ≤ games.length →
      selectLoop idxf games count fuel sel used off = some res → res.length = count := by
  intro fuel
  induction fuel with
  | zero =>
    intro sel used off res heq hle hcnt h
    simp only [selectLoop] at h
    by_cases hg : sel.length < count ∧ used.length < games.length
    · rw [if_pos hg] at h; exact absurd h (by simp)
    · rw [if_neg hg] at h
      rw [← Option.some.inj h]
      omega
  | succ n ih =>
    intro sel used off res heq hle hcnt h
    simp only [selectLoop] at h
    by_cases hg : sel.length < count ∧ used.length < games.length
    · rw [if_pos hg] at h
      by_cases hm : idxf off ∈ used
      · rw [if_pos hm] at h; exact ih sel used (off + 1) res heq hle hcnt h
      · rw [if_neg hm] at h
        refine ih _ _ (off + 1) res ?_ ?_ hcnt h
        · simp [heq]
        · have := hg.1; simp; omega
    · rw [if_neg hg] at h
      rw [← Option.some.inj h]
      omega

theorem selectLoop_names_nodup {idxf : ℕ → Option ℕ} {games : List Game} {count : ℕ}
    (hnames : (games.map Game.name).Nodup) :
    ∀ (fuel : ℕ) (sel : List (Option Game)) (used : List (Option ℕ)) (off : ℕ)
      (res : List (Option Game)),
      (∀ x ∈ sel, ∀ g, x = some g → ∃ i, some i ∈ used ∧ games[i]? = some g) →
      ((sel.filterMap id).map Game.name).Nodup →
      selectLoop idxf games count fuel sel used off = some res →
      ((res.filterMap id).map Game.name).Nodup := by
  intro fuel
  induction fuel with
  | zero =>
    intro sel used off res hinv hnd h
    simp only [selectLoop] at h
    by_cases hg : sel.length < count ∧ used.length < games.length
    · rw [if_pos hg] at h; exact absurd h (by simp)
    · rw [if_neg hg] at h; rw [← Option.some.inj h]; exact hnd
  | succ n ih =>
    intro sel used off res hinv hnd h
    simp only [selectLoop] at h
    by_cases hg : sel.length < count ∧ used.length < games.length
    · rw [if_pos hg] at h
      by_cases hm : idxf off ∈ used
      · rw [if_pos hm] at h; exact ih sel used (off + 1) res hinv hnd h
      · rw [if_neg hm] at h
        refine ih _ _ (off + 1) res ?_ ?_ h
        · intro x hx g hxg
          rcases List.mem_append.mp hx with hx | hx
          · obtain ⟨i, hiu, hig⟩ := hinv x hx g hxg
            exact ⟨i, List.mem_append.mpr (Or.inl hiu), hig⟩
          · rw [List.mem_singleton.mp hx] at hxg
            cases hio : idxf off with
            | none => rw [hio] at hxg; exact absurd hxg (by simp)
            | some i =>
              rw [hio] at hxg
              have hxg2 : games[i]? = some g := hxg
              exact ⟨i, List.mem_append.mpr (Or.inr (List.mem_singleton.mpr rfl)), hxg2⟩
        · rw [List.filterMap_append, List.map_append]
          cases he : (idxf off).bind (fun i => games[i]?) with
          | none =>
            have h0 : (List.map Game.name (List.filterMap id ([none] : List (Option Game)))) = [] := rfl
            rw [h0, List.append_nil]
            exact hnd
          | some g =>
            have h1 : (List.map Game.name (List.filterMap id ([some g] : List (Option Game)))) = [g.name] := rfl
            rw [h1, List.nodup_append]
            refine ⟨hnd, List.nodup_singleton _, ?_⟩
            intro a ha ha2
            rw [List.mem_singleton.mp ha2] at ha
            obtain ⟨g2, hg2mem, hg2name⟩ := List.mem_map.mp ha
            obtain ⟨x, hxsel, hxg2⟩ := List.mem_filterMap.mp hg2mem
            obtain ⟨j, hju, hjg⟩ := hinv x hxsel g2 hxg2
            cases hio : idxf off with
            | none => rw [hio] at he; exact absurd he (by simp)
            | some i =>
              rw [hio] at he
              have he2 : games[i]? = some g := he
              have hij : i ≠ j := by
                intro hij
                apply hm
                rw [hio, hij]
                exact hju
              have hilt : i < games.length := (List.getElem?_eq_some.mp he2).1
              have hjlt : j < games.length := (List.getElem?_eq_some.mp hjg).1
              have higame : games[i] = g := (List.getElem?_eq_some.mp he2).2
              have hjgame : games[j] = g2 := (List.getElem?_eq_some.mp hjg).2
              have hmi : i < (games.map Game.name).length := by simpa using hilt
              have hmj : j < (games.map Game.name).length := by simpa using hjlt
              have hnameeq : (games.map Game.name)[i] = (games.map Game.name)[j] := by
                simp only [List.getElem_map]
                rw [higame, hjgame, hg2name]
              exact hij ((List.Nodup.getElem_inj_iff hnames).mp hnameeq)
    · rw [if_neg hg] at h; rw [← Option.some.inj h]; exact hnd

theorem selectLoop_congr (idxf1 idxf2 : ℕ → Option ℕ) (games : List Game) (count : ℕ) :
    ∀ (fuel : ℕ) (sel : List (Option Game)) (used : List (Option ℕ)) (off : ℕ),
      (∀ k, off ≤ k → k < off + fuel → idxf1 k = idxf2 k) →
      selectLoop idxf1 games count fuel sel used off
        = selectLoop idxf2 games count fuel sel used off := by
  intro fuel
  induction fuel with
  | zero => intro sel used off _; rfl
  | succ n ih =>
    intro sel used off h
    simp only [selectLoop]
    have h0 : idxf1 off = idxf2 off := h off le_rfl (by omega)
    rw [h0]
    by_cases hg : sel.length < count ∧ used.length < games.length
    · rw [if_pos hg, if_pos hg]
      by_cases hm : idxf2 off ∈ used
      · rw [if_pos hm, if_pos hm]
        exact ih sel used (off + 1) fun k hk1 hk2 => h k (by omega) (by omega)
      · rw [if_neg hm, if_neg hm]
        exact ih _ _ (off + 1) fun k hk1 hk2 => h k (by omega) (by omega)
    · rw [if_neg hg, if_neg hg]

/-! ### Symbolic evaluation facts for the concrete fixtures -/

theorem wSin0_sineIdx (t : ℤ) (len k : ℕ) : sineIdx wSin0 t len k = 0 := by
  simp [sineIdx, jsIndex, seededRandom, wSin0]

theorem wSin5_sineIdx (k : ℕ) (hk : k < 5) : sineIdx wSin5 1717027200000 5 k = k := by
  interval_cases k <;> (norm_num [sineIdx, jsIndex, seededRandom, wSin5]; try decide)

theorem wSin9_sineIdx (k : ℕ) (hk : k < 9) : sineIdx wSin9 1717027200000 9 k = k := by
  interval_cases k <;> (norm_num [sineIdx, jsIndex, seededRandom, wSin9]; try decide)

theorem wParse : parseDateMs ("2024-05-30") = some 1717027200000 := by decide

theorem wSelect1 (k : ℕ) :
    selectGamesForDate wSin0 wPool1 ("2024-05-30") 9 (2 + k) = some [some (wG 1 ("A"))] := by
  unfold selectGamesForDate
  rw [wParse]
  have hbase : selectLoop (fun j => some (sineIdx wSin0 1717027200000 wPool1.length j))
      wPool1 9 2 [] [] 0 = some [some (wG 1 ("A"))] := by
    rw [selectLoop_congr (fun j => some (sineIdx wSin0 1717027200000 wPool1.length j))
      (fun _ => some 0) wPool1 9 2 [] [] 0 (fun j _ _ => by
        show some (sineIdx wSin0 1717027200000 wPool1.length j) = some 0
        rw [wSin0_sineIdx])]
    decide
  exact selectLoop_add hbase k

theorem wSelect5 (k : ℕ) :
    selectGamesForDate wSin5 wPool5 ("2024-05-30") 9 (5 + k) = some wRes5 := by
  unfold selectGamesForDate
  rw [wParse]
  have hbase : selectLoop (fun j => some (sineIdx wSin5 1717027200000 wPool5.length j))
      wPool5 9 5 [] [] 0 = some wRes5 := by
    rw [selectLoop_congr (fun j => some (sineIdx wSin5 1717027200000 wPool5.length j))
      (fun j => some (j % 5)) wPool5 9 5 [] [] 0 (fun j hj1 hj2 => by
        show some (sineIdx wSin5 1717027200000 wPool5.length j) = some (j % 5)
        rw [show wPool5.length = 5 from rfl, wSin5_sineIdx j (by omega),
          Nat.mod_eq_of_lt (by omega)])]
    decide
  exact selectLoop_add hbase k

theorem wSelect9 (k : ℕ) :
    selectGamesForDate wSin9 wPool9 ("2024-05-30") 9 (9 + k) = some wRes9 := by
  unfold selectGamesForDate
  rw [wParse]
  have hbase : selectLoop (fun j => some (sineIdx wSin9 1717027200000 wPool9.length j))
      wPool9 9 9 [] [] 0 = some wRes9 := by
    rw [selectLoop_congr (fun j => some (sineIdx wSin9 1717027200000 wPool9.length j))
      (fun j => some (j % 9)) wPool9 9 9 [] [] 0 (fun j hj1 hj2 => by
        show some (sineIdx wSin9 1717027200000 wPool9.length j) = some (j % 9)
        rw [show wPool9.length = 9 from rfl, wSin9_sineIdx j (by omega),
          Nat.mod_eq_of_lt (by omega)])]
    decide
  exact selectLoop_add hbase k

/-! ### Claim theorems -/

/-- Claim C1: for every pool of games and every date string, two invocations of
`selectGamesForDate` with the same pool (same contents, same order), the same
date and the same count return exactly the same output sequence.  The embedding
is a pure function of exactly these inputs (the source function reads no
mutable state; the platform sine `jsSin` is a fixed function), and the result
is independent of the embedding's fuel bound: any two terminating runs agree. -/
theorem selectGamesForDate_deterministic (jsSin : ℚ → ℚ) (games : List Game)
    (date : String) (count : ℕ) (fuel1 fuel2 : ℕ) (r1 r2 : List (Option Game))
    (h1 : selectGamesForDate jsSin games date count fuel1 = some r1)
    (h2 : selectGamesForDate jsSin games date count fuel2 = some r2) :
    r1 = r2 := by
  unfold selectGamesForDate at h1 h2
  cases hp : parseDateMs date with
  | some t => rw [hp] at h1 h2; exact selectLoop_agree h1 h2
  | none => rw [hp] at h1 h2; exact selectLoop_agree h1 h2

/-- Witness for C1: a concrete pool and date, two runs at different fuel
bounds, identical outputs. -/
theorem selectGamesForDate_deterministic_witness :
    selectGamesForDate wSin5 wPool5 ("2024-05-30") 9 6 = some wRes5 ∧
    selectGamesForDate wSin5 wPool5 ("2024-05-30") 9 11 = some wRes5 ∧
    wRes5 = wRes5 :=
  ⟨wSelect5 1, wSelect5 6,
    selectGamesForDate_deterministic wSin5 wPool5 ("2024-05-30") 9 6 11 wRes5 wRes5
      (wSelect5 1) (wSelect5 6)⟩

/-- Claim C2 (code bug): the claim — and §4.1 of the spec — require the
selector to terminate with exactly `pool.length` entries whenever
`pool.length < count`, for every date string.  The code violates this: for a
date string that does not parse, `new Date(date).getTime()` is `NaN`, so every
iteration computes the index `NaN`; the first iteration pushes
`games[NaN] = undefined` and adds `NaN` to the `Set` (SameValueZero treats
`NaN` as equal to itself), and every later iteration rejects the same `NaN`
index, so `selectedGames.length` stays 1 and `usedIndexes.size` stays 1 and
the `while` loop never exits.  Formally: on a 5-game pool with count 9 and the
date "not-a-date", the loop is still running at every fuel bound. -/
theorem selectGamesForDate_diverges_on_unparseable_date (jsSin : ℚ → ℚ) (fuel : ℕ) :
    selectGamesForDate jsSin wPool5 ("not-a-date") 9 fuel = none := by
  have hp : parseDateMs ("not-a-date") = none := by decide
  unfold selectGamesForDate
  rw [hp]
  cases fuel with
  | zero =>
    show selectLoop (fun _ => none) wPool5 9 0 [] [] 0 = none
    decide
  | succ n =>
    show selectLoop (fun _ => none) wPool5 9 n [none] [none] 1 = none
    exact selectLoop_none_stuck n [none] [none] 1 (List.mem_singleton.mpr rfl)
      (by decide) (by decide)

/-- Claim C3: for every pool in which no two games share a name and every
date, a terminating run of `selectGamesForDate` with count 9 returns no two
entries with the same name (the selector never accepts the same pool index
twice; entries are compared on the games actually selected, `undefined`
entries carrying no name). -/
theorem selectGamesForDate_no_duplicate_names (jsSin : ℚ → ℚ) (games : List Game)
    (date : String) (fuel : ℕ) (res : List (Option Game))
    (hnames : (games.map Game.name).Nodup)
    (h : selectGamesForDate jsSin games date 9 fuel = some res) :
    ((res.filterMap id).map Game.name).Nodup := by
  unfold selectGamesForDate at h
  cases hp : parseDateMs date with
  | some t =>
    rw [hp] at h
    exact selectLoop_names_nodup hnames fuel [] [] 0 res
      (fun x hx => absurd hx (List.not_mem_nil x)) (by simp) h
  | none =>
    rw [hp] at h
    exact selectLoop_names_nodup hnames fuel [] [] 0 res
      (fun x hx => absurd hx (List.not_mem_nil x)) (by simp) h

/-- Witness for C3: a concrete deduplicated pool and date; the returned
selection has pairwise distinct names. -/
theorem selectGamesForDate_no_duplicate_names_witness :
    (wPool5.map Game.name).Nodup ∧
    selectGamesForDate wSin5 wPool5 ("2024-05-30") 9 9 = some wRes5 ∧
    ((wRes5.filterMap id).map Game.name).Nodup :=
  ⟨by decide, wSelect5 4,
    selectGamesForDate_no_duplicate_names wSin5 wPool5 ("2024-05-30") 9 wRes5
      (by decide) (wSelect5 4)⟩

/-- Claim C10: `seededRandom` always returns a value in `[0, 1)` (for any
value of the platform sine), hence for a date whose parse yields a finite
timestamp every index computed inside `selectGamesForDate` — the floor of the
fraction times `pool.length` — lies in `[0, pool.length)`, and every element
of a returned selection is an element of the input pool (no out-of-bounds
access: every selected entry is a genuine pool member, never `undefined`). -/
theorem selectGamesForDate_indices_in_range (jsSin : ℚ → ℚ) (seed : ℚ) (t : ℤ)
    (len k : ℕ) (games : List Game) (date : String) (count fuel : ℕ)
    (res : List (Option Game)) :
    (0 ≤ seededRandom jsSin seed ∧ seededRandom jsSin seed < 1) ∧
    (0 < len → sineIdx jsSin t len k < len) ∧
    (parseDateMs date = some t →
      selectGamesForDate jsSin games date count fuel = some res →
      ∀ x ∈ res, ∃ g, x = some g ∧ g ∈ games) := by
  refine ⟨⟨seededRandom_nonneg _ _, seededRandom_lt_one _ _⟩,
    fun hlen => sineIdx_lt _ _ _ _ hlen, fun hp h => ?_⟩
  unfold selectGamesForDate at h
  rw [hp] at h
  refine selectLoop_elems (fun x => ∃ g, x = some g ∧ g ∈ games) ?_ fuel [] [] 0 res
    (fun x hx => absurd hx (List.not_mem_nil x)) h
  intro off hpos
  have hlt := sineIdx_lt jsSin t games.length off hpos
  refine ⟨games[sineIdx jsSin t games.length off], ?_, List.getElem_mem hlt⟩
  show games[sineIdx jsSin t games.length off]? = some _
  exact List.getElem?_eq_getElem hlt

/-- Witness for C10: the range facts and pool membership at a concrete run. -/
theorem selectGamesForDate_indices_in_range_witness :
    (0 ≤ seededRandom wSin5 0 ∧ seededRandom wSin5 0 < 1) ∧
    sineIdx wSin5 1717027200000 5 0 < 5 ∧
    (∀ x ∈ wRes5, ∃ g, x = some g ∧ g ∈ wPool5) :=
  ⟨(selectGamesForDate_indices_in_range wSin5 0 1717027200000 5 0 wPool5
      ("2024-05-30") 9 9 wRes5).1,
   (selectGamesForDate_indices_in_range wSin5 0 1717027200000 5 0 wPool5
      ("2024-05-30") 9 9 wRes5).2.1 (by decide),
   (selectGamesForDate_indices_in_range wSin5 0 1717027200000 5 0 wPool5
      ("2024-05-30") 9 9 wRes5).2.2 wParse (wSelect5 4)⟩

/-! ### Rate limiter lemmas and claims C6, C7 -/

theorem rlGet_rlSet_self (st : RLState) (ip : String) (r : RLRecord) :
    rlGet (rlSet st ip r) ip = some r := by
  induction st with
  | nil => simp [rlSet, rlGet]
  | cons kv rest ih =>
    obtain ⟨k, v⟩ := kv
    by_cases hk : k = ip
    · simp [rlSet, rlGet, hk]
    · simp only [rlSet, rlGet, if_neg hk]
      exact ih

theorem rlRun_window (ip : String) (reset : ℤ) :
    ∀ (ts : List ℤ) (st : RLState) (k : ℕ),
      rlGet st ip = some ⟨k, reset⟩ →
      k + ts.length ≤ 30 →
      (∀ t ∈ ts, t ≤ reset) →
      (rlRun ip st ts).1 = List.replicate ts.length false ∧
      rlGet (rlRun ip st ts).2 ip = some ⟨k + ts.length, reset⟩ := by
  intro ts
  induction ts with
  | nil => intro st k hget _ _; exact ⟨rfl, by simpa using hget⟩
  | cons t ts ih =>
    intro st k hget hle hin
    have hstep : isRateLimited st ip t = (false, rlSet st ip ⟨k + 1, reset⟩) := by
      unfold isRateLimited
      rw [hget]
      show (if t > reset then (false, rlSet st ip ⟨1, t + 60000⟩)
          else if 30 ≤ k then (true, st)
          else (false, rlSet st ip ⟨k + 1, reset⟩)) = (false, rlSet st ip ⟨k + 1, reset⟩)
      rw [if_neg (not_lt.mpr (hin t (List.mem_cons_self t ts)))]
      rw [if_neg (by simp only [List.length_cons] at hle; omega)]
    obtain ⟨ih1, ih2⟩ := ih (rlSet st ip ⟨k + 1, reset⟩) (k + 1)
      (rlGet_rlSet_self st ip ⟨k + 1, reset⟩)
      (by simp only [List.length_cons] at hle; omega)
      (fun x hx => hin x (List.mem_cons_of_mem t hx))
    constructor
    · simp only [rlRun, hstep, ih1, List.length_cons, List.replicate_succ]
    · simp only [rlRun, hstep]
      rw [show k + (t :: ts).length = k + 1 + ts.length from by simp; omega]
      exact ih2

/-- Claim C6: for a single client identity, 30 calls to the rate limiter
within one 60-second window all return false; the 31st call within the same
window returns true; and once the window's reset instant has strictly passed,
the next call returns false again and leaves a fresh record with count 1 and a
new reset instant. -/
theorem isRateLimited_window (ip : String) (t0 t31 tAfter : ℤ) (ts : List ℤ)
    (h29 : ts.length = 29)
    (hin : ∀ t ∈ ts, t ≤ t0 + 60000)
    (h31 : t31 ≤ t0 + 60000)
    (hAfter : t0 + 60000 < tAfter) :
    (rlRun ip [] (t0 :: ts)).1 = List.replicate 30 false ∧
    (isRateLimited (rlRun ip [] (t0 :: ts)).2 ip t31).1 = true ∧
    (isRateLimited (rlRun ip [] (t0 :: ts)).2 ip tAfter).1 = false ∧
    rlGet (isRateLimited (rlRun ip [] (t0 :: ts)).2 ip tAfter).2 ip
      = some ⟨1, tAfter + 60000⟩ := by
  have hfirst : isRateLimited [] ip t0 = (false, rlSet [] ip ⟨1, t0 + 60000⟩) := rfl
  have hrun := rlRun_window ip (t0 + 60000) ts (rlSet [] ip ⟨1, t0 + 60000⟩) 1
    (rlGet_rlSet_self _ _ _) (by omega) hin
  have hget : rlGet (rlRun ip [] (t0 :: ts)).2 ip = some ⟨30, t0 + 60000⟩ := by
    have h2 : (rlRun ip [] (t0 :: ts)).2 = (rlRun ip (rlSet [] ip ⟨1, t0 + 60000⟩) ts).2 := by
      simp only [rlRun, hfirst]
    rw [h2]
    have := hrun.2
    rw [h29] at this
    exact this
  refine ⟨?_, ?_, ?_, ?_⟩
  · have h1 : (rlRun ip [] (t0 :: ts)).1
        = false :: (rlRun ip (rlSet [] ip ⟨1, t0 + 60000⟩) ts).1 := by
      simp only [rlRun, hfirst]
    rw [h1, hrun.1, h29]
    decide
  · simp only [isRateLimited, hget]
    rw [if_neg (not_lt.mpr h31), if_pos (by norm_num)]
  · simp only [isRateLimited, hget]
    rw [if_pos hAfter]
  · simp only [isRateLimited, hget]
    rw [if_pos hAfter]
    exact rlGet_rlSet_self _ _ _

/-- Witness for C6 at a concrete identity and concrete call instants. -/
theorem isRateLimited_window_witness :
    (rlRun ("ip1") [] ((0 : ℤ) :: List.replicate 29 0)).1 = List.replicate 30 false ∧
    (isRateLimited (rlRun ("ip1") [] ((0 : ℤ) :: List.replicate 29 0)).2 ("ip1") 0).1 = true ∧
    (isRateLimited (rlRun ("ip1") [] ((0 : ℤ) :: List.replicate 29 0)).2 ("ip1") 60001).1 = false ∧
    rlGet (isRateLimited (rlRun ("ip1") [] ((0 : ℤ) :: List.replicate 29 0)).2 ("ip1") 60001).2 ("ip1")
      = some ⟨1, 60001 + 60000⟩ :=
  isRateLimited_window ("ip1") 0 0 60001 (List.replicate 29 0)
    (by decide) (by decide) (by decide) (by decide)

/-- Claim C7: whenever the rate limiter reports "limited" (returns true), the
client's record — indeed the whole map — is left unchanged: the count is not
incremented and the reset instant is not modified.  Only calls returning false
mutate the map. -/
theorem isRateLimited_true_frame (st : RLState) (ip : String) (now : ℤ)
    (st2 : RLState) (h : isRateLimited st ip now = (true, st2)) : st2 = st := by
  unfold isRateLimited at h
  cases hrec : rlGet st ip with
  | none =>
    rw [hrec] at h
    simp at h
  | some record =>
    rw [hrec] at h
    have h' : (if now > record.resetTime then (false, rlSet st ip ⟨1, now + 60000⟩)
        else if 30 ≤ record.count then (true, st)
        else (false, rlSet st ip ⟨record.count + 1, record.resetTime⟩)) = (true, st2) := h
    by_cases h1 : now > record.resetTime
    · rw [if_pos h1] at h'; simp at h'
    · rw [if_neg h1] at h'
      by_cases h2 : 30 ≤ record.count
      · rw [if_pos h2] at h'
        have := (Prod.mk.injEq _ _ _ _).mp h'
        exact this.2.symm
      · rw [if_neg h2] at h'; simp at h'

/-- Witness for C7: a concrete saturated record; the limited call leaves the
map unchanged. -/
theorem isRateLimited_true_frame_witness :
    isRateLimited [(("ip1"), ⟨30, 100⟩)] ("ip1") 50 = (true, [(("ip1"), ⟨30, 100⟩)]) ∧
    [(("ip1"), (⟨30, 100⟩ : RLRecord))] = [(("ip1"), ⟨30, 100⟩)] :=
  ⟨by decide, isRateLimited_true_frame [(("ip1"), ⟨30, 100⟩)] ("ip1") 50
    [(("ip1"), ⟨30, 100⟩)] (by decide)⟩

/-! ### Token manager: claim C8 -/

/-- Counterexample for C8 as stated: with an exchange that returns the empty
string as token, the second call is made strictly before the stored expiry
(time 1 < 3540000), yet both calls perform the upstream credential exchange,
because the cache-hit guard `accessToken && Date.now() < tokenExpiry` also
tests string truthiness.  So "two calls within the validity window perform
exactly one exchange" is false as stated. -/
theorem getAccessToken_empty_token_cex :
    getAccessToken ⟨"", 0⟩ 0 ("") 3600 = (("") , ⟨"", 3540000⟩, true) ∧
    ((1 : ℤ) < 3540000) ∧
    getAccessToken ⟨"", 3540000⟩ 1 ("t2") 3600 = (("t2"), ⟨"t2", 3540001⟩, true) :=
  ⟨by decide, by decide, by decide⟩

/-- Claim C8 (amended): provided the first call hands back a non-empty token
string, a second call made strictly before the stored expiry returns that same
cached token, leaves the state unchanged and performs no upstream exchange;
and whenever the first call did exchange, it stored the token with expiry
`now + (ttl - 60) * 1000` — now plus the returned ttl minus the 60-second
safety margin. -/
theorem getAccessToken_single_exchange (st : TokenState) (now1 : ℤ) (tok : String)
    (ttl : ℤ) (tok1 : String) (st1 : TokenState) (e1 : Bool) (now2 : ℤ)
    (tok2 : String) (ttl2 : ℤ)
    (h : getAccessToken st now1 tok ttl = (tok1, st1, e1))
    (hne : tok1 ≠ "")
    (hvalid : now2 < st1.tokenExpiry) :
    getAccessToken st1 now2 tok2 ttl2 = (tok1, st1, false) ∧
    (e1 = true → st1 = ⟨tok, now1 + (ttl - 60) * 1000⟩) := by
  unfold getAccessToken at h
  by_cases hc : st.accessToken ≠ "" ∧ now1 < st.tokenExpiry
  · rw [if_pos hc] at h
    have htok : st.accessToken = tok1 := congrArg Prod.fst h
    have hst : st = st1 := congrArg (fun p => p.2.1) h
    have he : false = e1 := congrArg (fun p => p.2.2) h
    subst htok
    subst hst
    subst he
    refine ⟨?_, fun hee => absurd hee (by simp)⟩
    unfold getAccessToken
    rw [if_pos ⟨hne, hvalid⟩]
  · rw [if_neg hc] at h
    have htok : tok = tok1 := congrArg Prod.fst h
    have hst : (⟨tok, now1 + (ttl - 60) * 1000⟩ : TokenState) = st1 :=
      congrArg (fun p => p.2.1) h
    subst htok
    subst hst
    refine ⟨?_, fun _ => rfl⟩
    unfold getAccessToken
    rw [if_pos ⟨hne, hvalid⟩]

/-- Witness for C8 (amended) at concrete times, tokens and ttls. -/
theorem getAccessToken_single_exchange_witness :
    getAccessToken ⟨"", 0⟩ 0 ("tokA") 3600 = (("tokA"), ⟨"tokA", 0 + (3600 - 60) * 1000⟩, true) ∧
    (("tokA") : String) ≠ "" ∧
    ((5 : ℤ) < (⟨"tokA", 0 + (3600 - 60) * 1000⟩ : TokenState).tokenExpiry) ∧
    (getAccessToken ⟨"tokA", 0 + (3600 - 60) * 1000⟩ 5 ("tokB") 7200
        = (("tokA"), ⟨"tokA", 0 + (3600 - 60) * 1000⟩, false) ∧
      (true = true →
        (⟨"tokA", 0 + (3600 - 60) * 1000⟩ : TokenState) = ⟨"tokA", 0 + (3600 - 60) * 1000⟩)) :=
  ⟨by decide, by decide, by decide,
    getAccessToken_single_exchange ⟨"", 0⟩ 0 ("tokA") 3600 ("tokA")
      ⟨"tokA", 0 + (3600 - 60) * 1000⟩ true 5 ("tokB") 7200
      (by decide) (by decide) (by decide)⟩

/-! ### Search handler: claim C9 -/

theorem jsTrim_mem {s : String} {c : Char} (hc : c ∈ (jsTrim s).toList) :
    c ∈ s.toList := by
  have hc2 : c ∈ (((s.toList.dropWhile fun x => isJsSpace x).reverse.dropWhile
      fun x => isJsSpace x).reverse) := hc
  have hc3 := (List.dropWhile_sublist _).subset (List.mem_reverse.mp hc2)
  have hc4 := (List.dropWhile_sublist (fun x => isJsSpace x)).subset
    (List.mem_reverse.mp hc3)
  exact hc4

theorem sanitizeQuery_no_banned (q : String) :
    ∀ c ∈ (sanitizeQuery q).toList, ¬(c = '"' ∨ c = '\\' ∨ c = ';') := by
  intro c hc
  have h1 : c ∈ (stripQuerySyntax q).toList := jsTrim_mem hc
  have h2 : c ∈ q.toList.filter fun x => ¬(x = '"' ∨ x = '\\' ∨ x = ';') := h1
  exact of_decide_eq_true (List.mem_filter.mp h2).2

/-- Claim C9: the search handler answers a missing query with a 400 client
error; a query whose trimmed length is below 2 with a 400; a query whose
sanitized (quote/backslash/semicolon-stripped, trimmed) length is below 2 with
a 400 — in all these cases no upstream call is made and the rate-limit map is
untouched.  When it does reach upstream, the posted body embeds exactly the
sanitized query, which contains no quote, backslash or semicolon. -/
theorem searchHandler_validates_and_sanitizes (q : String) (rl : RLState)
    (ip : String) (now : ℤ) :
    (searchHandler none rl ip now = (.badRequest, rl)) ∧
    ((jsTrim q).length < 2 → searchHandler (some q) rl ip now = (.badRequest, rl)) ∧
    ((sanitizeQuery q).length < 2 → searchHandler (some q) rl ip now = (.badRequest, rl)) ∧
    (∀ body rl2, searchHandler (some q) rl ip now = (.upstreamCall body, rl2) →
      body = searchBody (sanitizeQuery q) ∧
      ∀ c ∈ (sanitizeQuery q).toList, ¬(c = '"' ∨ c = '\\' ∨ c = ';')) := by
  refine ⟨rfl, ?_, ?_, ?_⟩
  · intro htrim
    by_cases hq : q = ""
    · simp [searchHandler, hq]
    · simp [searchHandler, hq, htrim]
  · intro hsan
    by_cases hq : q = ""
    · simp [searchHandler, hq]
    · by_cases htrim : (jsTrim q).length < 2
      · simp [searchHandler, hq, htrim]
      · simp [searchHandler, hq, htrim, hsan]
  · intro body rl2 h
    unfold searchHandler at h
    have h1 : (if q = "" then ((.badRequest : SearchOutcome), rl)
        else if (jsTrim q).length < 2 then (.badRequest, rl)
        else if (sanitizeQuery q).length < 2 then (.badRequest, rl)
        else match isRateLimited rl ip now with
          | (true, rl3) => (.tooMany, rl3)
          | (false, rl3) => (.upstreamCall (searchBody (sanitizeQuery q)), rl3))
        = (.upstreamCall body, rl2) := h
    by_cases hq : q = ""
    · rw [if_pos hq] at h1; exact absurd h1 (by simp)
    · rw [if_neg hq] at h1
      by_cases htrim : (jsTrim q).length < 2
      · rw [if_pos htrim] at h1; exact absurd h1 (by simp)
      · rw [if_neg htrim] at h1
        have h2 : (if (sanitizeQuery q).length < 2 then ((.badRequest : SearchOutcome), rl)
            else match isRateLimited rl ip now with
              | (true, rl3) => (.tooMany, rl3)
              | (false, rl3) => (.upstreamCall (searchBody (sanitizeQuery q)), rl3))
            = (.upstreamCall body, rl2) := h1
        by_cases hsan : (sanitizeQuery q).length < 2
        · rw [if_pos hsan] at h2; exact absurd h2 (by simp)
        · rw [if_neg hsan] at h2
          cases hrl : isRateLimited rl ip now with
          | mk b rl3 =>
            rw [hrl] at h2
            cases b with
            | true =>
              have h3 : ((.tooMany : SearchOutcome), rl3) = (.upstreamCall body, rl2) := h2
              exact absurd h3 (by simp)
            | false =>
              have h3 : ((.upstreamCall (searchBody (sanitizeQuery q)) : SearchOutcome), rl3)
                  = (.upstreamCall body, rl2) := h2
              have hbody := congrArg Prod.fst h3
              exact ⟨(SearchOutcome.upstreamCall.inj hbody).symm, sanitizeQuery_no_banned q⟩

/-- Witness for C9: missing query, a 1-character query, a query collapsing
below 2 characters after sanitizing, and a passing query whose posted body
embeds the sanitized text. -/
theorem searchHandler_validates_and_sanitizes_witness :
    searchHandler none [] ("ip") 0 = (.badRequest, []) ∧
    searchHandler (some ("a")) [] ("ip") 0 = (.badRequest, []) ∧
    searchHandler (some ("a;")) [] ("ip") 0 = (.badRequest, []) ∧
    (searchBody (sanitizeQuery ("ab;c")) = searchBody (sanitizeQuery ("ab;c")) ∧
      ∀ c ∈ (sanitizeQuery ("ab;c")).toList, ¬(c = '"' ∨ c = '\\' ∨ c = ';')) :=
  ⟨(searchHandler_validates_and_sanitizes ("x") [] ("ip") 0).1,
   (searchHandler_validates_and_sanitizes ("a") [] ("ip") 0).2.1 (by decide),
   (searchHandler_validates_and_sanitizes ("a;") [] ("ip") 0).2.2.1 (by decide),
   (searchHandler_validates_and_sanitizes ("ab;c") [] ("ip") 0).2.2.2
     (searchBody (sanitizeQuery ("ab;c"))) [(("ip"), ⟨1, 60000⟩)] (by decide)⟩

/-! ### Games handler lemmas and claims C4, C5 -/

theorem getGamesHandler_memory_hit (jsSin : ℚ → ℚ) (st : ServerState) (today : String)
    (u : Option (List Game)) (fuel : ℕ)
    (hd : st.cachedGrid.date = today) (hg : 0 < st.cachedGrid.games.length) :
    getGamesHandler jsSin st today u fuel
      = some (.ok st.cachedGrid.games st.cachedGrid.date, st, false) := by
  unfold getGamesHandler
  rw [if_pos ⟨hd, hg⟩]

theorem getGamesHandler_fresh (jsSin : ℚ → ℚ) (st : ServerState) (today : String)
    (pool : List Game) (fuel : ℕ) (selected : List (Option Game))
    (hmiss : ¬(st.cachedGrid.date = today ∧ 0 < st.cachedGrid.games.length))
    (hdb : (st.db.map fun rows => dbFind rows today).join = none)
    (hsel : selectGamesForDate jsSin (dedupByName pool) today 9 fuel = some selected) :
    getGamesHandler jsSin st today (some pool) fuel
      = some (.ok selected today,
          ⟨⟨today, selected⟩, st.db.map fun rows => dbInsertIfAbsent rows today selected⟩,
          true) := by
  unfold getGamesHandler
  rw [if_neg hmiss, hdb]
  show (match selectGamesForDate jsSin (dedupByName pool) today 9 fuel with
      | none => (none : Option (GamesResponse × ServerState × Bool))
      | some selectedGames =>
        some (.ok selectedGames today,
          ⟨⟨today, selectedGames⟩,
            st.db.map fun rows => dbInsertIfAbsent rows today selectedGames⟩,
          true))
      = some (.ok selected today,
          ⟨⟨today, selected⟩, st.db.map fun rows => dbInsertIfAbsent rows today selected⟩,
          true)
  rw [hsel]

theorem getGamesHandler_ok_cache (jsSin : ℚ → ℚ) (st : ServerState) (today : String)
    (u : Option (List Game)) (fuel : ℕ) (gs : List (Option Game)) (gid : String)
    (st1 : ServerState) (f1 : Bool)
    (h : getGamesHandler jsSin st today u fuel = some (.ok gs gid, st1, f1)) :
    st1.cachedGrid = ⟨today, gs⟩ ∧ gid = today := by
  unfold getGamesHandler at h
  by_cases hmem : st.cachedGrid.date = today ∧ 0 < st.cachedGrid.games.length
  · rw [if_pos hmem] at h
    have h3 := Option.some.inj h
    have hresp : (.ok st.cachedGrid.games st.cachedGrid.date : GamesResponse) = .ok gs gid :=
      congrArg Prod.fst h3
    have hst : st = st1 := congrArg (fun p => p.2.1) h3
    obtain ⟨hgames, hdate⟩ := GamesResponse.ok.inj hresp
    constructor
    · rw [← hst]
      have heta : st.cachedGrid = ⟨st.cachedGrid.date, st.cachedGrid.games⟩ := rfl
      rw [heta, hmem.1, hgames]
    · rw [← hdate]
      exact hmem.1
  · rw [if_neg hmem] at h
    cases hdbv : (st.db.map fun rows => dbFind rows today).join with
    | some gs2 =>
      rw [hdbv] at h
      have h2 : (some ((.ok gs2 today : GamesResponse),
          ({ st with cachedGrid := ⟨today, gs2⟩ } : ServerState), false)
            : Option (GamesResponse × ServerState × Bool)) = some (.ok gs gid, st1, f1) := h
      have h3 := Option.some.inj h2
      have hresp : (.ok gs2 today : GamesResponse) = .ok gs gid := congrArg Prod.fst h3
      have hst : ({ st with cachedGrid := ⟨today, gs2⟩ } : ServerState) = st1 :=
        congrArg (fun p => p.2.1) h3
      obtain ⟨hgames, hdate⟩ := GamesResponse.ok.inj hresp
      refine ⟨?_, hdate.symm⟩
      rw [← hst]
      show (⟨today, gs2⟩ : CachedGrid) = ⟨today, gs⟩
      rw [hgames]
    | none =>
      rw [hdbv] at h
      cases u with
      | none =>
        have h2 : (some ((.serverError : GamesResponse), st, true)
            : Option (GamesResponse × ServerState × Bool)) = some (.ok gs gid, st1, f1) := h
        have hresp : (.serverError : GamesResponse) = .ok gs gid :=
          congrArg Prod.fst (Option.some.inj h2)
        exact absurd hresp (by simp)
      | some pool =>
        have h2 : (match selectGamesForDate jsSin (dedupByName pool) today 9 fuel with
            | none => (none : Option (GamesResponse × ServerState × Bool))
            | some selectedGames =>
              some (.ok selectedGames today,
                ⟨⟨today, selectedGames⟩,
                  st.db.map fun rows => dbInsertIfAbsent rows today selectedGames⟩,
                true))
            = some (.ok gs gid, st1, f1) := h
        cases hsel : selectGamesForDate jsSin (dedupByName pool) today 9 fuel with
        | none =>
          rw [hsel] at h2
          exact absurd h2 (by simp)
        | some selected =>
          rw [hsel] at h2
          have h3 := Option.some.inj h2
          have hresp : (.ok selected today : GamesResponse) = .ok gs gid :=
            congrArg Prod.fst h3
          have hst : (⟨⟨today, selected⟩,
              st.db.map fun rows => dbInsertIfAbsent rows today selected⟩ : ServerState) = st1 :=
            congrArg (fun p => p.2.1) h3
          obtain ⟨hgames, hdate⟩ := GamesResponse.ok.inj hresp
          refine ⟨?_, hdate.symm⟩
          rw [← hst]
          show (⟨today, selected⟩ : CachedGrid) = ⟨today, gs⟩
          rw [hgames]

/-- Counterexample for C4 as stated: with an empty upstream pool and no
durable store, the computed grid is empty, the memory-slot guard
`cachedGrid.games.length > 0` rejects it, and two successive requests for the
same date both issue an upstream catalog fetch (final component `true` in both
responses) — so "at most one upstream fetch" is false as stated, even though
both responses carry the identical (empty) grid. -/
theorem getGamesHandler_refetch_cex :
    (getGamesHandler wSin0 wCold ("2024-05-30") (some []) 9
      = some (.ok [] ("2024-05-30"), ⟨⟨"2024-05-30", []⟩, none⟩, true)) ∧
    (getGamesHandler wSin0 ⟨⟨"2024-05-30", []⟩, none⟩ ("2024-05-30") (some []) 9
      = some (.ok [] ("2024-05-30"), ⟨⟨"2024-05-30", []⟩, none⟩, true)) := by
  have hsel : selectGamesForDate wSin0 (dedupByName []) ("2024-05-30") 9 9 = some [] := by
    unfold selectGamesForDate
    rw [wParse]
    rfl
  exact ⟨getGamesHandler_fresh wSin0 wCold ("2024-05-30") [] 9 [] (by decide) rfl hsel,
    getGamesHandler_fresh wSin0 ⟨⟨"2024-05-30", []⟩, none⟩ ("2024-05-30") [] 9 []
      (by decide) rfl hsel⟩

/-- Claim C4 (amended): whenever a games request succeeds with a *non-empty*
grid, its `gridId` is the request date, and a second request on the resulting
state within the same date returns the identical grid and state with no
upstream fetch (the read path finds the exact-date match in the memory slot
first; a durable hit on the first request had populated that slot before
returning).  The non-emptiness hypothesis is forced by the counterexample: an
empty grid is never cached, so it is refetched. -/
theorem getGamesHandler_cache_idempotent (jsSin jsSin2 : ℚ → ℚ) (st : ServerState)
    (today : String) (upstream : Option (List Game)) (fuel : ℕ)
    (upstream2 : Option (List Game)) (fuel2 : ℕ) (gs : List (Option Game))
    (gid : String) (st1 : ServerState) (f1 : Bool)
    (h : getGamesHandler jsSin st today upstream fuel = some (.ok gs gid, st1, f1))
    (hne : 0 < gs.length) :
    gid = today ∧
    getGamesHandler jsSin2 st1 today upstream2 fuel2 = some (.ok gs today, st1, false) := by
  obtain ⟨hcache, hgid⟩ := getGamesHandler_ok_cache jsSin st today upstream fuel gs gid st1 f1 h
  refine ⟨hgid, ?_⟩
  have hhit := getGamesHandler_memory_hit jsSin2 st1 today upstream2 fuel2
    (by rw [hcache]) (by rw [hcache]; exact hne)
  rw [hhit, hcache]

/-- Witness for C4 (amended): a first request served from the durable store
populates the memory slot; the second request is a memory hit with no fetch. -/
theorem getGamesHandler_cache_idempotent_witness :
    (getGamesHandler wSin0 wStDb ("2024-05-30") none 1
      = some (.ok [some (wG 1 ("A"))] ("2024-05-30"), wStHit, false)) ∧
    (0 < ([some (wG 1 ("A"))] : List (Option Game)).length) ∧
    ((("2024-05-30") : String) = ("2024-05-30") ∧
      getGamesHandler wSin0 wStHit ("2024-05-30") none 1
        = some (.ok [some (wG 1 ("A"))] ("2024-05-30"), wStHit, false)) :=
  ⟨by decide, by decide,
    getGamesHandler_cache_idempotent wSin0 wSin0 wStDb ("2024-05-30") none 1 none 1
      [some (wG 1 ("A"))] ("2024-05-30") wStHit false (by decide) (by decide)⟩

/-- Counterexample for C5 as stated: with an upstream pool of a single game
the handler responds successfully (`ok`, not an error) with a 1-game grid —
a partial grid on a success response, where the claim demands every successful
response carry a full 9-game grid. -/
theorem getGamesHandler_partial_grid_cex :
    getGamesHandler wSin0 wCold ("2024-05-30") (some wPool1) 2
      = some (.ok [some (wG 1 ("A"))] ("2024-05-30"),
          ⟨⟨"2024-05-30", [some (wG 1 ("A"))]⟩, none⟩, true) ∧
    ¬(([some (wG 1 ("A"))] : List (Option Game)).length = 9) := by
  constructor
  · have hd : dedupByName wPool1 = wPool1 := by decide
    have hsel : selectGamesForDate wSin0 (dedupByName wPool1) ("2024-05-30") 9 2
        = some [some (wG 1 ("A"))] := by
      rw [hd]
      exact wSelect1 0
    exact getGamesHandler_fresh wSin0 wCold ("2024-05-30") wPool1 2 [some (wG 1 ("A"))]
      (by decide) rfl hsel
  · decide

/-- Claim C5 (amended): a successful fresh response (upstream fetch performed)
carries exactly 9 games provided the deduplicated upstream pool has at least 9
games — the selection loop stops exactly at `count` distinct picks; and on a
cold cache (memory miss, durable miss) with a failing upstream fetch the
handler returns the fatal error response.  The pool-size hypothesis is forced
by the counterexample: a smaller pool yields a successful partial grid. -/
theorem getGamesHandler_full_grid (jsSin : ℚ → ℚ) (st : ServerState) (today : String)
    (pool : List Game) (fuel : ℕ) (gs : List (Option Game)) (gid : String)
    (st1 : ServerState)
    (h : getGamesHandler jsSin st today (some pool) fuel = some (.ok gs gid, st1, true))
    (hpool : 9 ≤ (dedupByName pool).length) :
    gs.length = 9 ∧
    (¬(st.cachedGrid.date = today ∧ 0 < st.cachedGrid.games.length) →
      (st.db.map fun rows => dbFind rows today).join = none →
      getGamesHandler jsSin st today none fuel = some (.serverError, st, true)) := by
  constructor
  · unfold getGamesHandler at h
    by_cases hmem : st.cachedGrid.date = today ∧ 0 < st.cachedGrid.games.length
    · rw [if_pos hmem] at h
      have hflag : false = true := congrArg (fun p => p.2.2) (Option.some.inj h)
      exact absurd hflag (by simp)
    · rw [if_neg hmem] at h
      cases hdbv : (st.db.map fun rows => dbFind rows today).join with
      | some gs2 =>
        rw [hdbv] at h
        have h2 : (some ((.ok gs2 today : GamesResponse),
            ({ st with cachedGrid := ⟨today, gs2⟩ } : ServerState), false)
              : Option (GamesResponse × ServerState × Bool))
            = some (.ok gs gid, st1, true) := h
        have hflag : false = true := congrArg (fun p => p.2.2) (Option.some.inj h2)
        exact absurd hflag (by simp)
      | none =>
        rw [hdbv] at h
        have h2 : (match selectGamesForDate jsSin (dedupByName pool) today 9 fuel with
            | none => (none : Option (GamesResponse × ServerState × Bool))
            | some selectedGames =>
              some (.ok selectedGames today,
                ⟨⟨today, selectedGames⟩,
                  st.db.map fun rows => dbInsertIfAbsent rows today selectedGames⟩,
                true))
            = some (.ok gs gid, st1, true) := h
        cases hsel : selectGamesForDate jsSin (dedupByName pool) today 9 fuel with
        | none =>
          rw [hsel] at h2
          exact absurd h2 (by simp)
        | some selected =>
          rw [hsel] at h2
          have hgs : selected = gs :=
            (GamesResponse.ok.inj (congrArg Prod.fst (Option.some.inj h2))).1
          rw [← hgs]
          unfold selectGamesForDate at hsel
          cases hp : parseDateMs today with
          | some t =>
            rw [hp] at hsel
            exact selectLoop_length fuel [] [] 0 selected rfl (by simp) hpool hsel
          | none =>
            rw [hp] at hsel
            exact selectLoop_length fuel [] [] 0 selected rfl (by simp) hpool hsel
  · intro hmiss hdbnone
    unfold getGamesHandler
    rw [if_neg hmiss, hdbnone]

/-- Evaluation of a cold fresh request on the 9-game fixture pool. -/
theorem wGetGames9 :
    getGamesHandler wSin9 wCold ("2024-05-30") (some wPool9) 9
      = some (.ok wRes9 ("2024-05-30"), ⟨⟨"2024-05-30", wRes9⟩, none⟩, true) := by
  have hd : dedupByName wPool9 = wPool9 := by decide
  have hsel : selectGamesForDate wSin9 (dedupByName wPool9) ("2024-05-30") 9 9
      = some wRes9 := by
    rw [hd]
    exact wSelect9 0
  exact getGamesHandler_fresh wSin9 wCold ("2024-05-30") wPool9 9 wRes9 (by decide) rfl hsel

/-- Witness for C5 (amended): a cold fresh request on a deduplicated 9-game
pool yields exactly 9 games; a cold request with a failing upstream fetch
yields the fatal error. -/
theorem getGamesHandler_full_grid_witness :
    (getGamesHandler wSin9 wCold ("2024-05-30") (some wPool9) 9
      = some (.ok wRes9 ("2024-05-30"), ⟨⟨"2024-05-30", wRes9⟩, none⟩, true)) ∧
    (9 ≤ (dedupByName wPool9).length) ∧
    wRes9.length = 9 ∧
    getGamesHandler wSin9 wCold ("2024-05-30") none 9 = some (.serverError, wCold, true) :=
  ⟨wGetGames9, by decide,
    (getGamesHandler_full_grid wSin9 wCold ("2024-05-30") wPool9 9 wRes9 ("2024-05-30")
      ⟨⟨"2024-05-30", wRes9⟩, none⟩ wGetGames9 (by decide)).1,
    (getGamesHandler_full_grid wSin9 wCold ("2024-05-30") wPool9 9 wRes9 ("2024-05-30")
      ⟨⟨"2024-05-30", wRes9⟩, none⟩ wGetGames9 (by decide)).2 (by decide) rfl⟩

end Flawlessgrid
